import Mathlib

/-!
# Dependency probing and configuration of the SASM launcher

A shallow embedding of `launcher/internal/util/dependencies.go` and of the
install handlers of `launcher/internal/gui/dependencyCheck.go`.

The Go code talks to the operating system through `os.Stat`, `os.UserHomeDir`,
`os.WriteFile` and `exec.Command`.  Everything the operating system answers is
collected in a `Machine`; the Go functions become functions of the machine that
return their result, the machine they leave behind and the log of the steps
they performed.
-/

namespace Sasm

/-! ## Text -/

/-- File contents, as a sequence of characters. -/
abbrev Text := List Char

/-- Go `unicode.IsSpace`: the Latin-1 spaces and the code points with the
Unicode White_Space property. -/
def isSpace (c : Char) : Bool :=
  let n := c.toNat
  n == 0x09 || n == 0x0A || n == 0x0B || n == 0x0C || n == 0x0D || n == 0x20
    || n == 0x85 || n == 0xA0 || n == 0x1680 || (0x2000 ≤ n && n ≤ 0x200A)
    || n == 0x2028 || n == 0x2029 || n == 0x202F || n == 0x205F || n == 0x3000

/-- Go `strings.TrimSpace`: the string without its leading and trailing white space. -/
def TrimSpace (s : String) : String :=
  String.mk ((s.toList.dropWhile isSpace).reverse.dropWhile isSpace).reverse

/-! ## The machine -/

/-- What a finished external command reports: `ok` is `err == nil` of
`cmd.Run()` / `cmd.Output()`, `stdout` is what `cmd.Output()` captured. -/
structure ExecResult where
  ok : Bool
  stdout : String
deriving DecidableEq, Repr

/-- The files visible to `os.Stat`, with their content (`none`: `os.Stat` fails). -/
abbrev FS := String → Option Text

/-- The file system `f` with the entry of `p` replaced by `v`. -/
def FS.set (f : FS) (p : String) (v : Option Text) : FS :=
  fun q => if q = p then v else f q

/-- The state of the machine and the behaviour of everything outside the repository.

* `homeDir`: the answer of `os.UserHomeDir` (`none`: it returns an error);
* `join`: the platform's `filepath.Join` on two elements;
* `lookPath`: whether `exec.LookPath` finds an executable for a command name without
  path separator on the search path. The installers, where it matters whether a process
  is started at all, consult it; for the other commands a name that is not found is one
  of the ways in which `tool` reports a failure;
* `fs`: the files;
* `tool`: exit status and output of an external command, which may depend on the files;
* `effect`: what a command whose work is not described in the repository
  (`brew`, `launchctl`, `killall`) does to the files;
* `writeOk`: whether `os.WriteFile` succeeds on a path;
* `plutilXml`: the text `plutil -convert xml1` writes for a file with the given content. -/
structure Machine where
  homeDir : Option String
  join : String → String → String
  lookPath : String → Bool
  fs : FS
  tool : FS → List String → ExecResult
  effect : FS → List String → FS
  writeOk : String → Bool
  plutilXml : Text → Text

/-- Something the program does to the machine. -/
inductive Action where
  | exec (argv : List String)
  | writeFile (path : String) (data : Text)
deriving DecidableEq, Repr

/-- An action that was performed, with its outcome (`ok`: no error). -/
structure Step where
  action : Action
  ok : Bool
deriving DecidableEq, Repr

/-- Go `error` values, as far as the program builds or forwards them. -/
inductive GoError where
  /-- the error `cmd.Run()` returned for this command, once started -/
  | exec (argv : List String)
  /-- the error of `exec.LookPath` for a command name that is not on the search path
  (`exec: "name": executable file not found in $PATH`); `exec.Command` keeps it and
  `cmd.Run()` returns it without starting a process -/
  | notFound (name : String)
  /-- the error returned by a function of package `os` -/
  | os (fn : String)
  /-- an error made by `fmt.Errorf(msg)` -/
  | msg (text : String)
  /-- an error made by `fmt.Errorf(msg + ": %v", cause)` -/
  | wrap (text : String) (cause : GoError)
deriving DecidableEq, Repr

/-! ## `dependencies.go`: the probes -/

structure DependencyStatus where
  Name : String
  Installed : Bool
  Path : String
  Message : String
deriving DecidableEq, Repr

structure Dependencies where
  Homebrew : DependencyStatus
  Docker : DependencyStatus
  XQuartz : DependencyStatus
deriving DecidableEq, Repr

/-- The command line `exec.Command("/bin/bash", "-c", "which brew")`. -/
def whichBrew : List String := ["/bin/bash", "-c", "which brew"]

/-- The command line `exec.Command("/bin/bash", "-c", "which docker")`. -/
def whichDocker : List String := ["/bin/bash", "-c", "which docker"]

/-- The command line `exec.Command("defaults", "read", "org.macosforge.xquartz.X11", "nolisten_tcp")`. -/
def defaultsRead : List String := ["defaults", "read", "org.macosforge.xquartz.X11", "nolisten_tcp"]

/-- Run a command that only inspects the machine (`which`, `defaults read`). -/
def Machine.query (m : Machine) (argv : List String) : ExecResult := m.tool m.fs argv

/-- The log entry of a query. -/
def Machine.queried (m : Machine) (argv : List String) : Step :=
  ⟨.exec argv, (m.query argv).ok⟩

/-- Whether `os.Stat(path)` returns no error. -/
def Machine.stat (m : Machine) (path : String) : Bool := (m.fs path).isSome

/-- The probe for Homebrew, with the commands it ran. Where the Go literal leaves `Path`
out, the field has the zero value `""`. -/
def checkHomebrew (m : Machine) : DependencyStatus × List Step :=
  let err := !(m.query whichBrew).ok
  if err then
    ({ Name := "Homebrew", Installed := false, Path := "",
       Message := "Homebrew not found - required for installing other dependencies" },
     [m.queried whichBrew])
  else
    let brewPath := (m.query whichBrew).stdout
    ({ Name := "Homebrew", Installed := true, Path := TrimSpace brewPath,
       Message := "Homebrew is installed" },
     [m.queried whichBrew, m.queried whichBrew])

/-- The probe for Docker, with the commands it ran: the bundle, then `which docker`
(run once for its status and once more for its output), then the fixed binary. -/
def checkDocker (m : Machine) : DependencyStatus × List Step :=
  let dockerAppPath := "/Applications/Docker.app"
  let dockerBinaryPath := "/usr/local/bin/docker"
  if m.stat dockerAppPath then
    ({ Name := "Docker", Installed := true, Path := dockerAppPath,
       Message := "Docker Desktop is installed" }, [])
  else if (m.query whichDocker).ok then
    if (m.query whichDocker).ok then
      ({ Name := "Docker", Installed := true, Path := TrimSpace (m.query whichDocker).stdout,
         Message := "Docker is installed" },
       [m.queried whichDocker, m.queried whichDocker])
    else if m.stat dockerBinaryPath then
      ({ Name := "Docker", Installed := true, Path := dockerBinaryPath,
         Message := "Docker is installed" },
       [m.queried whichDocker, m.queried whichDocker])
    else
      ({ Name := "Docker", Installed := false, Path := "",
         Message := "Docker Desktop not found - required for running containers" },
       [m.queried whichDocker, m.queried whichDocker])
  else if m.stat dockerBinaryPath then
    ({ Name := "Docker", Installed := true, Path := dockerBinaryPath,
       Message := "Docker is installed" },
     [m.queried whichDocker])
  else
    ({ Name := "Docker", Installed := false, Path := "",
       Message := "Docker Desktop not found - required for running containers" },
     [m.queried whichDocker])

/-- The preference file of XQuartz below the home directory `homeDir`. -/
def plistFile (m : Machine) (homeDir : String) : String :=
  m.join homeDir "Library/Preferences/org.macosforge.xquartz.X11.plist"

/-- Whether XQuartz is configured, with the commands run to find out. -/
def checkXQuartzConfiguration (m : Machine) : Bool × List Step :=
  match m.homeDir with
  | none => (false, [])
  | some homeDir =>
    if !m.stat (plistFile m homeDir) then (false, [])
    else
      let r := m.query defaultsRead
      if !r.ok then (false, [m.queried defaultsRead])
      else (TrimSpace r.stdout == "0", [m.queried defaultsRead])

/-- The probe for XQuartz, with the commands it ran. -/
def checkXQuartz (m : Machine) : DependencyStatus × List Step :=
  let xquartzAppPath := "/Applications/Utilities/XQuartz.app"
  if m.stat xquartzAppPath then
    let xquartzConfigured := checkXQuartzConfiguration m
    if xquartzConfigured.1 then
      ({ Name := "XQuartz", Installed := true, Path := xquartzAppPath,
         Message := "XQuartz is installed and configured" }, xquartzConfigured.2)
    else
      ({ Name := "XQuartz", Installed := true, Path := xquartzAppPath,
         Message := "XQuartz is installed but needs configuration" }, xquartzConfigured.2)
  else
    ({ Name := "XQuartz", Installed := false, Path := "",
       Message := "XQuartz not found - required for X11 forwarding" }, [])

/-- The three probes, in the order of the fields of the Go literal. -/
def CheckAllDependencies (m : Machine) : Dependencies × List Step :=
  let homebrew := checkHomebrew m
  let docker := checkDocker m
  let xquartz := checkXQuartz m
  ({ Homebrew := homebrew.1, Docker := docker.1, XQuartz := xquartz.1 },
   homebrew.2 ++ docker.2 ++ xquartz.2)

/-! ## `dependencies.go`: the installers -/

/-- What an installer or the configuration returns: the Go `error` (`none`: `nil`),
the machine it leaves behind and the steps it performed, in order. -/
structure Outcome where
  err : Option GoError
  machine : Machine
  trace : List Step

/-- Run a command whose work is not described in the repository. -/
def Machine.run (m : Machine) (argv : List String) : Machine × Step :=
  ({ m with fs := m.effect m.fs argv }, ⟨.exec argv, (m.tool m.fs argv).ok⟩)

/-- Run `cp src dst`: when it succeeds, `dst` holds what `src` held.
A failing command is taken to leave the files as they were. -/
def Machine.cp (m : Machine) (src dst : String) : Machine × Step :=
  let ok := (m.tool m.fs ["cp", src, dst]).ok
  (if ok then { m with fs := m.fs.set dst (m.fs src) } else m, ⟨.exec ["cp", src, dst], ok⟩)

/-- Run `rm -f path`: when it succeeds, `path` is gone. -/
def Machine.rm (m : Machine) (path : String) : Machine × Step :=
  let ok := (m.tool m.fs ["rm", "-f", path]).ok
  (if ok then { m with fs := m.fs.set path none } else m, ⟨.exec ["rm", "-f", path], ok⟩)

/-- Run a command that rewrites the file `path` in place: when it succeeds,
the content `t` of the file has become `edit t`. -/
def Machine.rewrite (m : Machine) (argv : List String) (path : String) (edit : Text → Text) :
    Machine × Step :=
  let ok := (m.tool m.fs argv).ok
  (if ok then { m with fs := m.fs.set path ((m.fs path).map edit) } else m, ⟨.exec argv, ok⟩)

/-- The call `os.WriteFile(path, data, 0644)`. -/
def Machine.writeFile (m : Machine) (path : String) (data : Text) : Machine × Step :=
  let ok := m.writeOk path
  (if ok then { m with fs := m.fs.set path (some data) } else m, ⟨.writeFile path data, ok⟩)

/-- The calls `cmd := exec.Command(name, args...)` and `return cmd.Run()` for a name
without path separator: `exec.Command` looks the name up on the search path; when the
lookup fails, `Run` returns the lookup error and no process is started, so nothing is
performed; otherwise the command runs and `Run` returns its error, if any. -/
def Machine.commandRun (m : Machine) (name : String) (args : List String) : Outcome :=
  if !m.lookPath name then ⟨some (.notFound name), m, []⟩
  else
    let cmd := m.run (name :: args)
    ⟨if cmd.2.ok then none else some (.exec (name :: args)), cmd.1, [cmd.2]⟩

/-- The installer of Docker: `cmd.Run()` of `brew install --cask docker`, and its error. -/
def InstallDocker (m : Machine) : Outcome :=
  m.commandRun "brew" ["install", "--cask", "docker"]

/-- The installer of XQuartz: `cmd.Run()` of `brew install --cask xquartz`, and its error. -/
def InstallXQuartz (m : Machine) : Outcome :=
  m.commandRun "brew" ["install", "--cask", "xquartz"]

/-! ### The edit of the preference file -/

/-- The closing tag the substitution looks for: `<\/dict>` in the pattern. -/
def closeDict : Text := "</dict>".toList

/-- The key the substitution writes. -/
def keyTag : Text := "<key>nolisten_tcp</key>".toList

/-- The value element the substitution writes. -/
def falseTag : Text := "<false/>".toList

/-- The value element the substitution does not write. -/
def trueTag : Text := "<true/>".toList

/-- The replacement text between `$1` and `$2`:
`        <key>nolisten_tcp<\/key>\n        <false\/>\n        `. -/
def injected : Text := "        <key>nolisten_tcp</key>\n        <false/>\n        ".toList

/-- The match of `(.*)(<\/dict>)` under `/s` on the whole text, already replaced:
`.*` is greedy and, with `/s`, crosses line ends, so the match starts at the
beginning of the text and its second group is the last `</dict>`; the result
is the text with `injected` put in front of that tag.  `none`: no match. -/
def substLast : Text → Option Text
  | [] => none
  | c :: cs =>
    match substLast cs with
    | some r => some (c :: r)
    | none => if closeDict.isPrefixOf (c :: cs) then some (injected ++ c :: cs) else none

/-- The edit `perl -i -pe 'BEGIN{undef $/;} s/(.*)(<\/dict>)/$1...$2/s'` makes on the
content of the file: the whole file is one record (`undef $/`), the substitution is
applied once, and a text without match is printed back as it is. -/
def perlSubst (t : Text) : Text := (substLast t).getD t

/-- The scratch file. -/
def tempFile : String := "/tmp/org.macosforge.xquartz.X11.plist"

/-- The minimal property list written when there is no preference file. -/
def plistContent : String :=
  "<?xml version=\"1.0\" encoding=\"UTF-8\"?>\n<!DOCTYPE plist PUBLIC \"-//Apple//DTD PLIST 1.0//EN\" \"http://www.apple.com/DTDs/PropertyList-1.0.dtd\">\n<plist version=\"1.0\">\n<dict>\n</dict>\n</plist>"

/-- The shell command of the edit, as in the Go source. -/
def perlCmd : String :=
  "perl -i -pe \x27BEGIN\x7bundef $/;\x7d s/(.*)(<\\/dict>)/$1        <key>nolisten_tcp<\\/key>\\n        <false\\/>\\n        $2/s\x27"

def launchctlStop : List String := ["launchctl", "stop", "com.apple.cfprefsd.xpc.agent"]

def launchctlStart : List String := ["launchctl", "start", "com.apple.cfprefsd.xpc.agent"]

def plutilConvert : List String := ["plutil", "-convert", "xml1", tempFile]

def perlInject : List String := ["bash", "-c", perlCmd ++ " " ++ tempFile]

def killallXQuartz : List String := ["killall", "XQuartz"]

/-- The branch on `os.Stat(plistFile)` in `ConfigureXQuartz`: the scratch file is created
with the minimal property list when there is no preference file, and is a copy of the
preference file otherwise. -/
def prepareScratch (m : Machine) (plist : String) : Machine × Step :=
  if !m.stat plist then m.writeFile tempFile plistContent.toList
  else m.cp plist tempFile

/-- The configuration of XQuartz: the nine steps of the Go function in their order, with
a return at the first failing step whose error the Go code checks. -/
def ConfigureXQuartz (m : Machine) : Outcome :=
  match m.homeDir with
  | none => ⟨some (.wrap "failed to get user home directory" (.os "UserHomeDir")), m, []⟩
  | some homeDir =>
    let plist := plistFile m homeDir
    let stop := m.run launchctlStop
    let prepare := prepareScratch stop.1 plist
    if !prepare.2.ok then
      ⟨some (if !stop.1.stat plist
          then .wrap "failed to create temp plist" (.os "WriteFile")
          else .wrap "failed to copy existing plist" (.exec ["cp", plist, tempFile])),
        prepare.1, [stop.2, prepare.2]⟩
    else
      let convert := prepare.1.rewrite plutilConvert tempFile m.plutilXml
      if !convert.2.ok then
        ⟨some (.wrap "failed to convert plist to xml" (.exec plutilConvert)),
          convert.1, [stop.2, prepare.2, convert.2]⟩
      else
        let inject := convert.1.rewrite perlInject tempFile perlSubst
        if !inject.2.ok then
          ⟨some (.wrap "failed to modify plist" (.exec perlInject)),
            inject.1, [stop.2, prepare.2, convert.2, inject.2]⟩
        else
          let back := inject.1.cp tempFile plist
          if !back.2.ok then
            ⟨some (.wrap "failed to copy plist back" (.exec ["cp", tempFile, plist])),
              back.1, [stop.2, prepare.2, convert.2, inject.2, back.2]⟩
          else
            let start := back.1.run launchctlStart
            let delete := start.1.rm tempFile
            let kill := delete.1.run killallXQuartz
            ⟨none, kill.1,
              [stop.2, prepare.2, convert.2, inject.2, back.2, start.2, delete.2, kill.2]⟩

/-! ## `dependencyCheck.go`: the install handlers of the dependency window -/

/-- The dependency window, reduced to the probe result it caches
(labels and buttons are presentation only). -/
structure DependencyWindow where
  dependencies : Dependencies

/-- A dialog shown to the user. -/
inductive Dialog where
  | error (e : GoError)
  | information (title message : String)
deriving DecidableEq, Repr

/-- What a handler of the window leaves behind. -/
structure Handled where
  window : DependencyWindow
  machine : Machine
  dialogs : List Dialog
  trace : List Step

/-- The method `refreshDependencies`: the probe is run once for the cache, and once more
by each of `updateXQuartzStatus` and `updateButtons` when XQuartz is installed. -/
def refreshDependencies (m : Machine) : DependencyWindow × List Step :=
  let deps := CheckAllDependencies m
  let status := if deps.1.XQuartz.Installed then (CheckAllDependencies m).2 else []
  let buttons := if deps.1.XQuartz.Installed then (CheckAllDependencies m).2 else []
  (⟨deps.1⟩, deps.2 ++ status ++ buttons)

/-- The handler `installDocker`, with the background task run to its end. -/
def installDocker (dw : DependencyWindow) (m : Machine) : Handled :=
  if !dw.dependencies.Homebrew.Installed then
    ⟨dw, m, [.error (.msg "Homebrew is required to install Docker")], []⟩
  else
    let r := InstallDocker m
    let shown :=
      match r.err with
      | some err => Dialog.error (.wrap "Failed to install Docker" err)
      | none => Dialog.information "Success"
          "Docker installed successfully! You may need to start Docker Desktop manually."
    let refreshed := refreshDependencies r.machine
    ⟨refreshed.1, r.machine, [shown], r.trace ++ refreshed.2⟩

/-- The handler `installXQuartz`, with the background task run to its end. -/
def installXQuartz (dw : DependencyWindow) (m : Machine) : Handled :=
  if !dw.dependencies.Homebrew.Installed then
    ⟨dw, m, [.error (.msg "Homebrew is required to install XQuartz")], []⟩
  else
    let r := InstallXQuartz m
    let shown :=
      match r.err with
      | some err => Dialog.error (.wrap "Failed to install XQuartz" err)
      | none => Dialog.information "Success"
          "XQuartz installed successfully! Configuration is still needed."
    let refreshed := refreshDependencies r.machine
    ⟨refreshed.1, r.machine, [shown], r.trace ++ refreshed.2⟩

/-! ## Reading the key in a text -/

/-- The value element that follows, after white space, at the start of `t`. -/
def valueAt (t : Text) : Option Bool :=
  let rest := t.dropWhile isSpace
  if falseTag.isPrefixOf rest then some false
  else if trueTag.isPrefixOf rest then some true
  else none

/-- The text holds the key `nolisten_tcp`. -/
def hasKey : Text → Bool
  | [] => false
  | c :: cs => keyTag.isPrefixOf (c :: cs) || hasKey cs

/-- The value of the first key `nolisten_tcp` in the text. -/
def firstValue : Text → Option Bool
  | [] => none
  | c :: cs =>
    if keyTag.isPrefixOf (c :: cs) then valueAt ((c :: cs).drop keyTag.length)
    else firstValue cs

/-- The value of the last key `nolisten_tcp` in the text. -/
def lastValue : Text → Option Bool
  | [] => none
  | c :: cs =>
    if hasKey cs then lastValue cs
    else if keyTag.isPrefixOf (c :: cs) then valueAt ((c :: cs).drop keyTag.length)
    else none

/-- The values of all keys `nolisten_tcp` in the text, in order. -/
def keyValues : Text → List (Option Bool)
  | [] => []
  | c :: cs =>
    if keyTag.isPrefixOf (c :: cs) then valueAt ((c :: cs).drop keyTag.length) :: keyValues cs
    else keyValues cs

/-! ## Vocabulary of the statements -/

/-- The steps that produce the content of the preference file: creating or copying the
scratch file, converting it, injecting the key, copying it back. -/
def fileContentStep : Action → Bool
  | .writeFile _ _ => true
  | .exec argv => argv.head? == some "cp" || argv == plutilConvert || argv == perlInject

/-- The fixed sequence of steps of `ConfigureXQuartz` for the home directory `homeDir`;
the second step creates the scratch file when the preference file is missing once the
daemon is stopped, and copies the preference file otherwise. -/
def configureSteps (m : Machine) (homeDir : String) : List Action :=
  [.exec launchctlStop,
   if (m.run launchctlStop).1.stat (plistFile m homeDir)
     then .exec ["cp", plistFile m homeDir, tempFile]
     else .writeFile tempFile plistContent.toList,
   .exec plutilConvert,
   .exec perlInject,
   .exec ["cp", tempFile, plistFile m homeDir],
   .exec launchctlStart,
   .exec ["rm", "-f", tempFile],
   .exec killallXQuartz]

/-- The external commands of `ConfigureXQuartz` for the preference file `plist`. -/
def configureCommands (plist : String) : List (List String) :=
  [launchctlStop, ["cp", plist, tempFile], plutilConvert, perlInject, ["cp", tempFile, plist],
   launchctlStart, ["rm", "-f", tempFile], killallXQuartz]

/-- Two texts differ at a position both have. -/
def clash : Text → Text → Bool
  | a :: as, b :: bs => a != b || clash as bs
  | _, _ => false

/-- The key read at the start of `y ++ ...`, with its value. -/
def headValue (l : Text) : Option (Option Bool) :=
  if keyTag.isPrefixOf l then some (valueAt (l.drop keyTag.length)) else none

/-- The text holds the key `nolisten_tcp`, and wherever it holds it the value is `false`,
the value `defaults read` prints as the `0` that `checkXQuartzConfiguration` accepts. -/
def configured (t : Text) : Prop :=
  hasKey t = true ∧ ∀ v ∈ keyValues t, v = some false

/-- The minimal property list as `plutil -convert xml1` writes it back: the property list
writer of the system writes a dictionary without entries as `<dict/>`. -/
def emptyDictXml : Text :=
  "<?xml version=\"1.0\" encoding=\"UTF-8\"?>\n<!DOCTYPE plist PUBLIC \"-//Apple//DTD PLIST 1.0//EN\" \"http://www.apple.com/DTDs/PropertyList-1.0.dtd\">\n<plist version=\"1.0\">\n<dict/>\n</plist>\n".toList

/-- The answer of `defaults read org.macosforge.xquartz.X11 nolisten_tcp` for a preference
file with the given content: `1` or `0` for the boolean stored under the key, and a
failure when there is no file or no such key. -/
def defaultsAnswer (content : Option Text) : ExecResult :=
  match content.map firstValue with
  | some (some false) => ⟨true, "0\n"⟩
  | some (some true) => ⟨true, "1\n"⟩
  | _ => ⟨false, ""⟩

/-! ## Machines used as examples -/

/-- A machine on which nothing is installed: no file, no command on the search path, every
command fails. -/
def bareMachine : Machine where
  homeDir := some "/Users/u"
  join := fun a b => a ++ "/" ++ b
  lookPath := fun _ => false
  fs := fun _ => none
  tool := fun _ _ => ⟨false, ""⟩
  effect := fun f _ => f
  writeOk := fun _ => true
  plutilXml := fun t => t

/-- A machine with the Docker bundle and the XQuartz bundle but no preference file,
on which `which` finds nothing and every other command succeeds. -/
def bundleMachine : Machine where
  homeDir := some "/Users/u"
  join := fun a b => a ++ "/" ++ b
  lookPath := fun name => name != "brew" && name != "docker"
  fs := fun p =>
    if p = "/Applications/Docker.app" ∨ p = "/Applications/Utilities/XQuartz.app" then some []
    else none
  tool := fun _ argv => ⟨argv.head? != some "/bin/bash", ""⟩
  effect := fun f _ => f
  writeOk := fun _ => true
  plutilXml := fun t => t

/-- A machine without home directory on which every command and every write succeeds. -/
def homelessMachine : Machine where
  homeDir := none
  join := fun a b => a ++ "/" ++ b
  lookPath := fun _ => true
  fs := fun _ => none
  tool := fun _ _ => ⟨true, ""⟩
  effect := fun f _ => f
  writeOk := fun _ => true
  plutilXml := fun t => t

/-- A machine with the XQuartz bundle and a preference file that holds only an empty
dictionary, written `<dict/>`; every command succeeds and the conversion keeps the text. -/
def emptyDictMachine : Machine where
  homeDir := some "/Users/u"
  join := fun a b => a ++ "/" ++ b
  lookPath := fun _ => true
  fs := fun p =>
    if p = "/Applications/Utilities/XQuartz.app" then some []
    else if p = "/Users/u/Library/Preferences/org.macosforge.xquartz.X11.plist" then
      some "<plist version=\"1.0\">\n<dict/>\n</plist>\n".toList
    else none
  tool := fun _ _ => ⟨true, ""⟩
  effect := fun f _ => f
  writeOk := fun _ => true
  plutilXml := fun t => t

/-- A machine with the XQuartz bundle and a preference file that sets `nolisten_tcp` to
`false`; every command succeeds, the conversion keeps the text, and `defaults read`
prints the value of the key in the preference file. -/
def configuredMachine : Machine where
  homeDir := some "/Users/u"
  join := fun a b => a ++ "/" ++ b
  lookPath := fun _ => true
  fs := fun p =>
    if p = "/Applications/Utilities/XQuartz.app" then some []
    else if p = "/Users/u/Library/Preferences/org.macosforge.xquartz.X11.plist" then
      some "<plist version=\"1.0\">\n<dict>\n\t<key>nolisten_tcp</key>\n\t<false/>\n</dict>\n</plist>\n".toList
    else none
  tool := fun f argv =>
    ⟨true,
      if argv = defaultsRead then
        if ((f "/Users/u/Library/Preferences/org.macosforge.xquartz.X11.plist").map firstValue)
          = some (some false) then "0\n" else "1\n"
      else ""⟩
  effect := fun f _ => f
  writeOk := fun _ => true
  plutilXml := fun t => t

/-- A machine with the XQuartz bundle and no preference file. `which` finds nothing, every
other command succeeds, `defaults read` answers from the preference file, and the
conversion writes the empty dictionary of the minimal property list as `<dict/>`. -/
def freshMachine : Machine where
  homeDir := some "/Users/u"
  join := fun a b => a ++ "/" ++ b
  lookPath := fun name => name != "brew" && name != "docker"
  fs := fun p => if p = "/Applications/Utilities/XQuartz.app" then some [] else none
  tool := fun f argv =>
    if argv = defaultsRead then
      defaultsAnswer (f "/Users/u/Library/Preferences/org.macosforge.xquartz.X11.plist")
    else ⟨argv.head? != some "/bin/bash", ""⟩
  effect := fun f _ => f
  writeOk := fun _ => true
  plutilXml := fun t => if t = plistContent.toList then emptyDictXml else t

/-- The machine `freshMachine` with a conversion that keeps the text. -/
def freshTextMachine : Machine :=
  { freshMachine with plutilXml := fun t => t }

/-- The machine `freshTextMachine` on which the `perl` command fails. -/
def brokenPerlMachine : Machine :=
  { freshTextMachine with tool := fun _ argv => ⟨argv != perlInject, ""⟩ }

set_option maxRecDepth 100000

/-! ## The probes -/

/-- C1: each of the three statuses returned by `CheckAllDependencies` has an empty
`Path` whenever its `Installed` is false, on every machine. -/
theorem CheckAllDependencies_path_empty (m : Machine) :
    ((CheckAllDependencies m).1.Homebrew.Installed = false →
        (CheckAllDependencies m).1.Homebrew.Path = "") ∧
    ((CheckAllDependencies m).1.Docker.Installed = false →
        (CheckAllDependencies m).1.Docker.Path = "") ∧
    ((CheckAllDependencies m).1.XQuartz.Installed = false →
        (CheckAllDependencies m).1.XQuartz.Path = "") := by
  refine ⟨?_, ?_, ?_⟩
  · simp only [CheckAllDependencies, checkHomebrew]
    split <;> simp
  · simp only [CheckAllDependencies, checkDocker]
    split_ifs <;> simp
  · simp only [CheckAllDependencies, checkXQuartz]
    split_ifs <;> simp

/-- Witness of C1 on the machine with nothing installed: all three are reported
as not installed, with empty paths. -/
theorem CheckAllDependencies_path_empty_witness :
    ((CheckAllDependencies bareMachine).1.Homebrew.Installed = false ∧
      (CheckAllDependencies bareMachine).1.Homebrew.Path = "") ∧
    ((CheckAllDependencies bareMachine).1.Docker.Installed = false ∧
      (CheckAllDependencies bareMachine).1.Docker.Path = "") ∧
    ((CheckAllDependencies bareMachine).1.XQuartz.Installed = false ∧
      (CheckAllDependencies bareMachine).1.XQuartz.Path = "") :=
  ⟨⟨rfl, (CheckAllDependencies_path_empty bareMachine).1 rfl⟩,
   ⟨rfl, (CheckAllDependencies_path_empty bareMachine).2.1 rfl⟩,
   ⟨rfl, (CheckAllDependencies_path_empty bareMachine).2.2 rfl⟩⟩

/-- C4: `checkDocker` reports installed exactly when the bundle exists, `which docker`
succeeds or the fixed binary exists; the path is that of the first of these, in this
order; and when the bundle exists no command is run. -/
theorem checkDocker_first_match (m : Machine) :
    ((checkDocker m).1.Installed = true ↔
      (m.stat "/Applications/Docker.app" = true ∨ (m.query whichDocker).ok = true ∨
        m.stat "/usr/local/bin/docker" = true)) ∧
    (m.stat "/Applications/Docker.app" = true →
      (checkDocker m).1.Path = "/Applications/Docker.app" ∧ (checkDocker m).2 = []) ∧
    (m.stat "/Applications/Docker.app" = false → (m.query whichDocker).ok = true →
      (checkDocker m).1.Path = TrimSpace (m.query whichDocker).stdout) ∧
    (m.stat "/Applications/Docker.app" = false → (m.query whichDocker).ok = false →
      m.stat "/usr/local/bin/docker" = true →
      (checkDocker m).1.Path = "/usr/local/bin/docker") := by
  simp only [checkDocker]
  refine ⟨?_, ?_, ?_, ?_⟩
  · split_ifs <;> simp_all
  · intro h; simp [h]
  · intro h1 h2; simp [h1, h2]
  · intro h1 h2 h3; simp [h1, h2, h3]

/-- Witness of C4 on a machine with the Docker bundle: installed, with the bundle
path, and no command run. -/
theorem checkDocker_first_match_witness :
    (checkDocker bundleMachine).1.Installed = true ∧
    (checkDocker bundleMachine).1.Path = "/Applications/Docker.app" ∧
    (checkDocker bundleMachine).2 = [] :=
  ⟨(checkDocker_first_match bundleMachine).1.2 (Or.inl rfl),
   (checkDocker_first_match bundleMachine).2.1 rfl⟩

/-- C5: when the XQuartz bundle exists, `checkXQuartz` reports installed with the bundle
path; its message is "XQuartz is installed and configured" exactly when the home
directory resolves, the preference file exists, `defaults read` succeeds and its
trimmed output is "0", and "XQuartz is installed but needs configuration" otherwise. -/
theorem checkXQuartz_bundle_present (m : Machine)
    (hbundle : m.stat "/Applications/Utilities/XQuartz.app" = true) :
    (checkXQuartz m).1.Installed = true ∧
    (checkXQuartz m).1.Path = "/Applications/Utilities/XQuartz.app" ∧
    ((checkXQuartz m).1.Message = "XQuartz is installed and configured" ↔
      ∃ homeDir, m.homeDir = some homeDir ∧ m.stat (plistFile m homeDir) = true ∧
        (m.query defaultsRead).ok = true ∧ TrimSpace (m.query defaultsRead).stdout = "0") ∧
    ((checkXQuartz m).1.Message ≠ "XQuartz is installed and configured" →
      (checkXQuartz m).1.Message = "XQuartz is installed but needs configuration") := by
  simp only [checkXQuartz, hbundle, if_true, checkXQuartzConfiguration]
  cases hh : m.homeDir with
  | none => simp
  | some homeDir =>
    simp only [Option.some.injEq, exists_eq_left']
    by_cases hs : m.stat (plistFile m homeDir) = true
    · by_cases hok : (m.query defaultsRead).ok = true
      · by_cases ht : TrimSpace (m.query defaultsRead).stdout = "0"
        · simp [hs, hok, ht]
        · simp [hs, hok, ht]
      · simp [hs, hok]
    · simp [hs]

/-- Witness of C5 on a machine with the XQuartz bundle and no preference file, and on one
whose preference file makes `defaults read` print `0`. -/
theorem checkXQuartz_bundle_present_witness :
    ((checkXQuartz bundleMachine).1.Installed = true ∧
      (checkXQuartz bundleMachine).1.Path = "/Applications/Utilities/XQuartz.app" ∧
      (checkXQuartz bundleMachine).1.Message = "XQuartz is installed but needs configuration") ∧
    ((configuredMachine.query defaultsRead).stdout = "0\n" ∧
      (checkXQuartz configuredMachine).1.Message = "XQuartz is installed and configured") :=
  ⟨⟨(checkXQuartz_bundle_present bundleMachine rfl).1,
    (checkXQuartz_bundle_present bundleMachine rfl).2.1,
    (checkXQuartz_bundle_present bundleMachine rfl).2.2.2 (by decide)⟩,
   by decide,
   (checkXQuartz_bundle_present configuredMachine rfl).2.2.1.2
    ⟨"/Users/u", rfl, by decide, rfl, by decide⟩⟩

/-! ## The installers and their guard -/

/-- C2, as stated, fails in the kind of the error: on the machine with nothing installed
the probe reports Homebrew as absent and `brew` is not on the search path; `InstallDocker`
and `InstallXQuartz` fail there, but with the lookup error of `exec` for `brew`, which
`cmd.Run()` hands back, and not with an error the program makes itself. -/
theorem InstallDocker_lookup_error_counterexample :
    (checkHomebrew bareMachine).1.Installed = false ∧
    bareMachine.lookPath "brew" = false ∧
    (InstallDocker bareMachine).err = some (.notFound "brew") ∧
    (InstallXQuartz bareMachine).err = some (.notFound "brew") ∧
    (∀ text, (InstallDocker bareMachine).err ≠ some (.msg text)) ∧
    (∀ text, (InstallXQuartz bareMachine).err ≠ some (.msg text)) :=
  ⟨rfl, rfl, rfl, rfl, fun _ h => (by cases h), fun _ h => (by cases h)⟩

/-- C2, amended: on every machine where `brew` is not on the search path, `InstallDocker`
and `InstallXQuartz` fail and run no command: they return the lookup error of `exec` for
`brew`, perform no step and leave the machine as it is. The precondition error is made one
layer up: for every dependency window whose cached probe result says Homebrew is not
installed, the handlers `installDocker` and `installXQuartz` show the error "Homebrew is
required to install ..." and nothing else, perform no step, and leave the machine and the
cache as they are. -/
theorem InstallDocker_without_brew (m : Machine) (habsent : m.lookPath "brew" = false) :
    ((InstallDocker m).err = some (.notFound "brew") ∧ (InstallDocker m).trace = [] ∧
      (InstallDocker m).machine = m) ∧
    ((InstallXQuartz m).err = some (.notFound "brew") ∧ (InstallXQuartz m).trace = [] ∧
      (InstallXQuartz m).machine = m) ∧
    (∀ dw : DependencyWindow, dw.dependencies.Homebrew.Installed = false →
      ((installDocker dw m).dialogs = [.error (.msg "Homebrew is required to install Docker")] ∧
        (installDocker dw m).trace = [] ∧ (installDocker dw m).machine = m ∧
        (installDocker dw m).window = dw) ∧
      ((installXQuartz dw m).dialogs =
          [.error (.msg "Homebrew is required to install XQuartz")] ∧
        (installXQuartz dw m).trace = [] ∧ (installXQuartz dw m).machine = m ∧
        (installXQuartz dw m).window = dw)) := by
  refine ⟨?_, ?_, ?_⟩
  · simp [InstallDocker, Machine.commandRun, habsent]
  · simp [InstallXQuartz, Machine.commandRun, habsent]
  · intro dw hcache
    simp [installDocker, installXQuartz, hcache]

/-- With `brew` on the search path the installer does run its command, once, and returns
the error of that run, if any. -/
theorem InstallDocker_with_brew (m : Machine) (hbrew : m.lookPath "brew" = true) :
    (InstallDocker m).trace =
      [⟨.exec ["brew", "install", "--cask", "docker"],
        (m.tool m.fs ["brew", "install", "--cask", "docker"]).ok⟩] ∧
    ((InstallDocker m).err = none ↔
      (m.tool m.fs ["brew", "install", "--cask", "docker"]).ok = true) := by
  simp [InstallDocker, Machine.commandRun, hbrew, Machine.run]

/-- Witness of the amended C2 on the machine with nothing installed, for the window that
has just probed it: the installers return the lookup error and perform no step, and the
handlers refuse both installations without performing a step. -/
theorem InstallDocker_without_brew_witness :
    bareMachine.lookPath "brew" = false ∧
    (refreshDependencies bareMachine).1.dependencies.Homebrew.Installed = false ∧
    ((InstallDocker bareMachine).err = some (.notFound "brew") ∧
      (InstallDocker bareMachine).trace = []) ∧
    ((InstallXQuartz bareMachine).err = some (.notFound "brew") ∧
      (InstallXQuartz bareMachine).trace = []) ∧
    ((installDocker (refreshDependencies bareMachine).1 bareMachine).dialogs =
        [.error (.msg "Homebrew is required to install Docker")] ∧
      (installDocker (refreshDependencies bareMachine).1 bareMachine).trace = []) ∧
    ((installXQuartz (refreshDependencies bareMachine).1 bareMachine).dialogs =
        [.error (.msg "Homebrew is required to install XQuartz")] ∧
      (installXQuartz (refreshDependencies bareMachine).1 bareMachine).trace = []) :=
  ⟨rfl, rfl,
   ⟨(InstallDocker_without_brew bareMachine rfl).1.1, (InstallDocker_without_brew bareMachine rfl).1.2.1⟩,
   ⟨(InstallDocker_without_brew bareMachine rfl).2.1.1,
    (InstallDocker_without_brew bareMachine rfl).2.1.2.1⟩,
   ⟨((InstallDocker_without_brew bareMachine rfl).2.2 _ rfl).1.1,
    ((InstallDocker_without_brew bareMachine rfl).2.2 _ rfl).1.2.1⟩,
   ⟨((InstallDocker_without_brew bareMachine rfl).2.2 _ rfl).2.1,
    ((InstallDocker_without_brew bareMachine rfl).2.2 _ rfl).2.2.1⟩⟩

/-! ## `ConfigureXQuartz`: result and order of the steps -/

/-- C7, as stated, fails: when the home directory cannot be found, `ConfigureXQuartz`
returns an error although no step was performed, so none of the steps (b)-(f) failed. -/
theorem ConfigureXQuartz_homeless_counterexample :
    (ConfigureXQuartz homelessMachine).err =
      some (.wrap "failed to get user home directory" (.os "UserHomeDir")) ∧
    (ConfigureXQuartz homelessMachine).trace = [] ∧
    (∀ f argv, (homelessMachine.tool f argv).ok = true) ∧
    (∀ path, homelessMachine.writeOk path = true) :=
  ⟨rfl, rfl, fun _ _ => rfl, fun _ => rfl⟩

/-! ### The log entries of the single steps -/

theorem Machine.run_step (m : Machine) (argv : List String) :
    (m.run argv).2 = ⟨.exec argv, (m.tool m.fs argv).ok⟩ := rfl

theorem Machine.cp_step (m : Machine) (src dst : String) :
    (m.cp src dst).2 = ⟨.exec ["cp", src, dst], (m.tool m.fs ["cp", src, dst]).ok⟩ := rfl

theorem Machine.rm_step (m : Machine) (path : String) :
    (m.rm path).2 = ⟨.exec ["rm", "-f", path], (m.tool m.fs ["rm", "-f", path]).ok⟩ := rfl

theorem Machine.rewrite_step (m : Machine) (argv : List String) (path : String)
    (edit : Text → Text) :
    (m.rewrite argv path edit).2 = ⟨.exec argv, (m.tool m.fs argv).ok⟩ := rfl

theorem Machine.writeFile_step (m : Machine) (path : String) (data : Text) :
    (m.writeFile path data).2 = ⟨.writeFile path data, m.writeOk path⟩ := rfl

theorem prepareScratch_action (m : Machine) (plist : String) :
    (prepareScratch m plist).2.action =
      if m.stat plist then .exec ["cp", plist, tempFile]
      else .writeFile tempFile plistContent.toList := by
  unfold prepareScratch
  cases m.stat plist <;> rfl

theorem fileContentStep_prepareScratch (m : Machine) (plist : String) :
    fileContentStep (prepareScratch m plist).2.action = true := by
  rw [prepareScratch_action]
  cases m.stat plist <;> rfl

theorem fileContentStep_cp (src dst : String) :
    fileContentStep (.exec ["cp", src, dst]) = true := rfl

theorem fileContentStep_plutilConvert : fileContentStep (.exec plutilConvert) = true := by
  decide

theorem fileContentStep_perlInject : fileContentStep (.exec perlInject) = true := by
  decide

theorem fileContentStep_launchctlStop : fileContentStep (.exec launchctlStop) = false := by
  decide

theorem fileContentStep_launchctlStart : fileContentStep (.exec launchctlStart) = false := by
  decide

theorem fileContentStep_rm : fileContentStep (.exec ["rm", "-f", tempFile]) = false := by
  decide

theorem fileContentStep_killall : fileContentStep (.exec killallXQuartz) = false := by
  decide

/-- C7, amended: `ConfigureXQuartz` succeeds exactly when the home directory is found and
every step (b)-(f) it performed succeeded; the outcomes of stopping and restarting the
daemon, deleting the scratch file and terminating XQuartz do not enter. -/
theorem ConfigureXQuartz_error_iff (m : Machine) :
    (ConfigureXQuartz m).err = none ↔
      (m.homeDir ≠ none ∧
        ∀ s ∈ (ConfigureXQuartz m).trace, fileContentStep s.action = true → s.ok = true) := by
  unfold ConfigureXQuartz
  cases hh : m.homeDir with
  | none => simp
  | some homeDir =>
    simp only [ne_eq, not_false_eq_true, true_and, reduceCtorEq]
    have hp := fileContentStep_prepareScratch (m.run launchctlStop).1 (plistFile m homeDir)
    by_cases h1 : (prepareScratch (m.run launchctlStop).1 (plistFile m homeDir)).2.ok = true
    · simp only [h1, Bool.not_true, Bool.false_eq_true, if_false]
      simp only [Machine.rewrite_step, Machine.cp_step, Machine.run_step, Machine.rm_step]
      by_cases h2 : ((prepareScratch (m.run launchctlStop).1 (plistFile m homeDir)).1.tool
          (prepareScratch (m.run launchctlStop).1 (plistFile m homeDir)).1.fs plutilConvert).ok = true
      · simp only [h2, Bool.not_true, Bool.false_eq_true, if_false]
        split_ifs with h3 h4
        · simp only [Bool.not_eq_true', Bool.not_eq_true] at h3
          simp [h3, fileContentStep_perlInject]
        · simp only [Bool.not_eq_true', Bool.not_eq_true] at h3 h4
          simp [h4, fileContentStep_cp]
        · simp only [Bool.not_eq_true', Bool.not_eq_true, Bool.not_eq_false] at h3 h4
          simp [h1, h2, h3, h4, hp, fileContentStep_launchctlStop, fileContentStep_launchctlStart,
            fileContentStep_rm, fileContentStep_killall]
      · simp [h2, fileContentStep_plutilConvert]
    · simp [h1, hp]

/-- C9: the steps `ConfigureXQuartz` performs are an initial segment of the fixed sequence
stop daemon, create or copy scratch file, convert, inject, copy back, restart daemon,
delete scratch file, terminate XQuartz (none at all without home directory); a failed
step (b)-(f) is never followed by another step; so on an error return the daemon is not
restarted, the scratch file is not deleted and XQuartz is not terminated, while on
success the whole sequence was performed. -/
theorem ConfigureXQuartz_early_exit (m : Machine) :
    (m.homeDir = none → (ConfigureXQuartz m).trace = []) ∧
    (∀ homeDir, m.homeDir = some homeDir →
      (ConfigureXQuartz m).trace.map Step.action <+: configureSteps m homeDir) ∧
    (∀ s ∈ (ConfigureXQuartz m).trace.dropLast, fileContentStep s.action = true → s.ok = true) ∧
    ((ConfigureXQuartz m).err ≠ none → ∀ s ∈ (ConfigureXQuartz m).trace,
      s.action ≠ .exec launchctlStart ∧ s.action ≠ .exec ["rm", "-f", tempFile] ∧
        s.action ≠ .exec killallXQuartz) ∧
    ((ConfigureXQuartz m).err = none → ∀ homeDir, m.homeDir = some homeDir →
      (ConfigureXQuartz m).trace.map Step.action = configureSteps m homeDir) := by
  unfold ConfigureXQuartz
  cases hh : m.homeDir with
  | none => simp
  | some homeDir =>
    simp only [reduceCtorEq, false_imp_iff, true_and, Option.some.injEq, forall_eq']
    have hp := fileContentStep_prepareScratch (m.run launchctlStop).1 (plistFile m homeDir)
    have hpa := prepareScratch_action (m.run launchctlStop).1 (plistFile m homeDir)
    have hstart : fileContentStep (.exec launchctlStart) = false := fileContentStep_launchctlStart
    have hrm : fileContentStep (.exec ["rm", "-f", tempFile]) = false := fileContentStep_rm
    have hkill : fileContentStep (.exec killallXQuartz) = false := fileContentStep_killall
    have hstop : fileContentStep (.exec launchctlStop) = false := fileContentStep_launchctlStop
    have hne : ∀ a : Action, fileContentStep a = true → a ≠ .exec launchctlStart ∧
        a ≠ .exec ["rm", "-f", tempFile] ∧ a ≠ .exec killallXQuartz := by
      intro a ha
      refine ⟨?_, ?_, ?_⟩ <;> (rintro rfl; simp_all)
    have hstopne : Action.exec launchctlStop ≠ .exec launchctlStart ∧
        Action.exec launchctlStop ≠ .exec ["rm", "-f", tempFile] ∧
        Action.exec launchctlStop ≠ .exec killallXQuartz := by decide
    by_cases h1 : (prepareScratch (m.run launchctlStop).1 (plistFile m homeDir)).2.ok = true
    · simp only [h1, Bool.not_true, Bool.false_eq_true, if_false]
      simp only [Machine.rewrite_step, Machine.cp_step, Machine.run_step, Machine.rm_step]
      by_cases h2 : ((prepareScratch (m.run launchctlStop).1 (plistFile m homeDir)).1.tool
          (prepareScratch (m.run launchctlStop).1 (plistFile m homeDir)).1.fs plutilConvert).ok = true
      · simp only [h2, Bool.not_true, Bool.false_eq_true, if_false]
        split_ifs with h3 h4
        · simp only [Bool.not_eq_true', Bool.not_eq_true] at h3
          refine ⟨?_, ?_, ?_, ?_⟩
          · simp [configureSteps, hpa, List.prefix_iff_eq_take]
          · simp [List.dropLast, hstop, h1, h2]
          · intro _
            simp only [List.mem_cons, List.mem_singleton, forall_eq_or_imp, forall_eq,
              List.not_mem_nil, false_imp_iff, implies_true, and_true]
            exact ⟨hstopne, hne _ hp, hne _ fileContentStep_plutilConvert,
              hne _ fileContentStep_perlInject⟩
          · simp
        · simp only [Bool.not_eq_true', Bool.not_eq_true, Bool.not_eq_false] at h3 h4
          refine ⟨?_, ?_, ?_, ?_⟩
          · simp [configureSteps, hpa, List.prefix_iff_eq_take]
          · simp [List.dropLast, hstop, h1, h2, h3]
          · intro _
            simp only [List.mem_cons, List.mem_singleton, forall_eq_or_imp, forall_eq,
              List.not_mem_nil, false_imp_iff, implies_true, and_true]
            exact ⟨hstopne, hne _ hp, hne _ fileContentStep_plutilConvert,
              hne _ fileContentStep_perlInject, hne _ (fileContentStep_cp _ _)⟩
          · simp
        · simp only [Bool.not_eq_true', Bool.not_eq_true, Bool.not_eq_false] at h3 h4
          refine ⟨?_, ?_, ?_, ?_⟩
          · simp [configureSteps, hpa]
          · simp [List.dropLast, hstop, h1, h2, h3, h4, hstart, hrm]
          · simp
          · intro _
            simp [configureSteps, hpa]
      · refine ⟨?_, ?_, ?_, ?_⟩
        · simp [h2, configureSteps, hpa, List.prefix_iff_eq_take]
        · simp [h2, List.dropLast, hstop, h1]
        · intro _
          simp only [h2, Bool.not_false, if_true, List.mem_cons, List.mem_singleton,
            forall_eq_or_imp, forall_eq, List.not_mem_nil, false_imp_iff, implies_true, and_true]
          exact ⟨hstopne, hne _ hp, hne _ fileContentStep_plutilConvert⟩
        · simp [h2]
    · refine ⟨?_, ?_, ?_, ?_⟩
      · simp [h1, configureSteps, hpa, Machine.run_step, List.prefix_iff_eq_take]
      · simp [h1, List.dropLast, Machine.run_step, hstop]
      · intro _
        simp only [h1, Bool.not_false, if_true, List.mem_cons, List.mem_singleton,
          forall_eq_or_imp, forall_eq, List.not_mem_nil, false_imp_iff, implies_true, and_true,
          Machine.run_step]
        exact ⟨hstopne, hne _ hp⟩
      · simp [h1]

/-! ## The substitution on texts -/

theorem isPrefixOf_of_clash (q k rest : Text) (h : clash q k = true) :
    q.isPrefixOf (k ++ rest) = false := by
  induction q generalizing k with
  | nil => simp [clash] at h
  | cons a as ih =>
    cases k with
    | nil => simp [clash] at h
    | cons b bs =>
      simp only [clash, Bool.or_eq_true, bne_iff_ne, ne_eq] at h
      simp only [List.cons_append, List.isPrefixOf, Bool.and_eq_false_imp, beq_iff_eq]
      intro hab
      rcases h with h | h
      · exact absurd hab h
      · exact ih bs h

/-- A pattern all of whose non-empty ends clash with `k` is found in front of `y ++ k ++ rest`
only when it is in front of `y`. -/
theorem isPrefixOf_append_of_clash (p k : Text)
    (h : ∀ i, i < p.length → clash (p.drop i) k = true) (y rest : Text) :
    p.isPrefixOf (y ++ (k ++ rest)) = p.isPrefixOf y := by
  induction y generalizing p with
  | nil =>
    cases p with
    | nil => simp
    | cons a as => simpa using isPrefixOf_of_clash (a :: as) k rest (h 0 (by simp))
  | cons c ys ih =>
    cases p with
    | nil => simp
    | cons a as =>
      have := ih as (fun i hi => by simpa using h (i + 1) (by simpa using hi))
      simp only [List.cons_append, List.isPrefixOf_cons₂, this]

theorem keyTag_clash_closeDict : ∀ i, i < keyTag.length → clash (keyTag.drop i) closeDict = true := by
  decide

theorem keyTag_clash_injected : ∀ i, i < keyTag.length → clash (keyTag.drop i) injected = true := by
  decide

theorem falseTag_clash_closeDict :
    ∀ i, i < falseTag.length → clash (falseTag.drop i) closeDict = true := by
  decide

theorem falseTag_clash_injected :
    ∀ i, i < falseTag.length → clash (falseTag.drop i) injected = true := by
  decide

theorem trueTag_clash_closeDict :
    ∀ i, i < trueTag.length → clash (trueTag.drop i) closeDict = true := by
  decide

theorem trueTag_clash_injected :
    ∀ i, i < trueTag.length → clash (trueTag.drop i) injected = true := by
  decide

/-- The value read at the start of `z ++ ...` is the same with and without the injected
text in front of the closing tag. -/
theorem valueAt_append_injected (z rest : Text) :
    valueAt (z ++ (injected ++ (closeDict ++ rest))) = valueAt (z ++ (closeDict ++ rest)) := by
  induction z with
  | nil => rfl
  | cons c zs ih =>
    by_cases hc : isSpace c = true
    · have h1 : ∀ l, valueAt (c :: l) = valueAt l := by
        intro l; simp [valueAt, List.dropWhile, hc]
      simpa [h1] using ih
    · have h1 : ∀ l, valueAt (c :: l) =
          if falseTag.isPrefixOf (c :: l) then some false
          else if trueTag.isPrefixOf (c :: l) then some true else none := by
        intro l; simp [valueAt, List.dropWhile, hc]
      rw [List.cons_append, List.cons_append, h1, h1, ← List.cons_append, ← List.cons_append,
        isPrefixOf_append_of_clash _ _ falseTag_clash_injected,
        isPrefixOf_append_of_clash _ _ trueTag_clash_injected,
        isPrefixOf_append_of_clash _ _ falseTag_clash_closeDict,
        isPrefixOf_append_of_clash _ _ trueTag_clash_closeDict]

theorem headValue_append_injected (y rest : Text) :
    headValue (y ++ (injected ++ (closeDict ++ rest))) = headValue (y ++ (closeDict ++ rest)) := by
  unfold headValue
  rw [isPrefixOf_append_of_clash _ _ keyTag_clash_injected,
    isPrefixOf_append_of_clash _ _ keyTag_clash_closeDict]
  by_cases hp : keyTag.isPrefixOf y = true
  · have hlen : keyTag.length ≤ y.length := (List.isPrefixOf_iff_prefix.mp hp).length_le
    simp only [hp, if_true, List.drop_append_of_le_length hlen]
    rw [valueAt_append_injected]
  · simp [hp]

theorem keyValues_cons (c : Char) (cs : Text) :
    keyValues (c :: cs) = (headValue (c :: cs)).toList ++ keyValues cs := by
  simp only [keyValues, headValue]
  split <;> simp

/-- The values of the keys after the injection are the values before it, with one more
`false` at the place of the injection. -/
theorem keyValues_append_injected (x rest : Text) :
    ∃ a b, keyValues (x ++ (closeDict ++ rest)) = a ++ b ∧
      keyValues (x ++ (injected ++ (closeDict ++ rest))) = a ++ some false :: b := by
  induction x with
  | nil => exact ⟨[], keyValues (closeDict ++ rest), rfl, rfl⟩
  | cons c xs ih =>
    obtain ⟨a, b, h1, h2⟩ := ih
    refine ⟨(headValue (c :: (xs ++ (closeDict ++ rest)))).toList ++ a, b, ?_, ?_⟩
    · rw [List.cons_append, keyValues_cons, h1, List.append_assoc]
    · rw [List.cons_append, keyValues_cons, h2, ← List.cons_append, headValue_append_injected,
        List.cons_append, List.append_assoc]

theorem closeDict_not_infix_nil : ¬ closeDict <:+: ([] : Text) := by
  decide

theorem substLast_eq_none_iff (t : Text) : substLast t = none ↔ ¬ closeDict <:+: t := by
  induction t with
  | nil => simpa [substLast] using closeDict_not_infix_nil
  | cons c cs ih =>
    rw [List.infix_cons_iff, not_or, ← ih, substLast]
    cases h : substLast cs with
    | none => simp [List.isPrefixOf_iff_prefix]
    | some r => simp

/-- The substitution puts the injected text in front of the last closing tag. -/
theorem substLast_last (pre suf : Text) (hlast : ¬ closeDict <:+: (closeDict ++ suf).tail) :
    substLast (pre ++ (closeDict ++ suf)) = some (pre ++ (injected ++ (closeDict ++ suf))) := by
  induction pre with
  | nil =>
    have h := (substLast_eq_none_iff _).mpr hlast
    have hc : closeDict ++ suf = '<' :: (closeDict ++ suf).tail := rfl
    have hp : closeDict.isPrefixOf ('<' :: (closeDict ++ suf).tail) = true := by
      rw [← hc]; exact List.isPrefixOf_iff_prefix.mpr (List.prefix_append _ _)
    rw [List.nil_append, List.nil_append, hc, substLast, h]
    simp only [hp, if_true]
  | cons c cs ih => rw [List.cons_append, substLast, ih]; rfl

/-- A match of the substitution is at a last closing tag. -/
theorem substLast_some (t r : Text) (h : substLast t = some r) :
    ∃ pre suf, t = pre ++ (closeDict ++ suf) ∧ r = pre ++ (injected ++ (closeDict ++ suf)) ∧
      ¬ closeDict <:+: (closeDict ++ suf).tail := by
  induction t generalizing r with
  | nil => simp [substLast] at h
  | cons c cs ih =>
    rw [substLast] at h
    cases hcs : substLast cs with
    | some r0 =>
      obtain ⟨pre, suf, h1, h2, h3⟩ := ih r0 hcs
      rw [hcs] at h
      refine ⟨c :: pre, suf, by rw [h1]; rfl, ?_, h3⟩
      rw [h2] at h
      exact (Option.some.inj h).symm
    | none =>
      rw [hcs] at h
      by_cases hp : closeDict.isPrefixOf (c :: cs) = true
      · obtain ⟨suf, hsuf⟩ := List.isPrefixOf_iff_prefix.mp hp
        have htail : (closeDict ++ suf).tail = cs := by rw [hsuf]; rfl
        refine ⟨[], suf, by simpa using hsuf.symm, ?_, ?_⟩
        · simp only [hp, if_true, Option.some.injEq] at h
          rw [← h, hsuf]; rfl
        · rw [htail]; exact (substLast_eq_none_iff cs).mp hcs
      · simp [hp] at h

theorem perlSubst_of_last (pre suf : Text) (hlast : ¬ closeDict <:+: (closeDict ++ suf).tail) :
    perlSubst (pre ++ (closeDict ++ suf)) = pre ++ (injected ++ (closeDict ++ suf)) := by
  rw [perlSubst, substLast_last pre suf hlast]; rfl

theorem perlSubst_unmatched (t : Text) (h : ¬ closeDict <:+: t) : perlSubst t = t := by
  rw [perlSubst, (substLast_eq_none_iff t).mpr h]; rfl

/-- The substitution keeps every key with its value and adds at most one key, with value
`false`. -/
theorem keyValues_perlSubst (t : Text) :
    (¬ closeDict <:+: t ∧ perlSubst t = t) ∨
    (closeDict <:+: t ∧ ∃ a b, keyValues t = a ++ b ∧
      keyValues (perlSubst t) = a ++ some false :: b) := by
  cases h : substLast t with
  | none =>
    exact Or.inl ⟨(substLast_eq_none_iff t).mp h, by rw [perlSubst, h]; rfl⟩
  | some r =>
    right
    obtain ⟨pre, suf, h1, h2, -⟩ := substLast_some t r h
    refine ⟨?_, ?_⟩
    · rw [h1]; exact ⟨pre, suf, by simp⟩
    · have hr : perlSubst t = r := by rw [perlSubst, h]; rfl
      rw [hr, h1, h2]
      exact keyValues_append_injected pre suf

theorem hasKey_eq (t : Text) : hasKey t = !(keyValues t).isEmpty := by
  induction t with
  | nil => rfl
  | cons c cs ih =>
    rw [hasKey, keyValues, ih]
    split <;> simp_all

theorem firstValue_eq (t : Text) : firstValue t = (keyValues t).head?.join := by
  induction t with
  | nil => rfl
  | cons c cs ih =>
    rw [firstValue, keyValues, ih]
    split <;> simp_all

theorem lastValue_eq (t : Text) : lastValue t = (keyValues t).getLast?.join := by
  induction t with
  | nil => rfl
  | cons c cs ih =>
    rw [lastValue, keyValues, ih, hasKey_eq]
    cases hk : keyValues cs with
    | nil => by_cases hp : keyTag.isPrefixOf (c :: cs) = true <;> simp [hp]
    | cons v vs =>
      by_cases hp : keyTag.isPrefixOf (c :: cs) = true <;> simp [hp, List.getLast?_cons_cons]

/-! ## `ConfigureXQuartz` when every step succeeds -/

/-- On a machine with a home directory where the commands of `ConfigureXQuartz` succeed
(and the write of the scratch file, when there is no preference file), and where these
commands leave the files alone as far as the repository does not say what they do,
`ConfigureXQuartz` returns no error, removes the scratch file and leaves as preference file
the converted and edited text of the old preference file (of the minimal property list
when there was none). -/
theorem ConfigureXQuartz_success (m : Machine) (homeDir : String)
    (hhome : m.homeDir = some homeDir)
    (hok : ∀ f, ∀ argv ∈ configureCommands (plistFile m homeDir), (m.tool f argv).ok = true)
    (hwrite : m.fs (plistFile m homeDir) = none → m.writeOk tempFile = true)
    (hquiet : ∀ f, ∀ argv ∈ configureCommands (plistFile m homeDir), m.effect f argv = f) :
    (ConfigureXQuartz m).err = none ∧
    (ConfigureXQuartz m).machine =
      { m with fs := (m.fs.set (plistFile m homeDir) (some (perlSubst (m.plutilXml
          ((m.fs (plistFile m homeDir)).getD plistContent.toList))))).set tempFile none } := by
  have ok1 : ∀ f, (m.tool f launchctlStop).ok = true := fun f => hok f _ (by simp [configureCommands])
  have ok2 : ∀ f, (m.tool f ["cp", plistFile m homeDir, tempFile]).ok = true :=
    fun f => hok f _ (by simp [configureCommands])
  have ok3 : ∀ f, (m.tool f plutilConvert).ok = true := fun f => hok f _ (by simp [configureCommands])
  have ok4 : ∀ f, (m.tool f perlInject).ok = true := fun f => hok f _ (by simp [configureCommands])
  have ok5 : ∀ f, (m.tool f ["cp", tempFile, plistFile m homeDir]).ok = true :=
    fun f => hok f _ (by simp [configureCommands])
  have ok6 : ∀ f, (m.tool f launchctlStart).ok = true := fun f => hok f _ (by simp [configureCommands])
  have ok7 : ∀ f, (m.tool f ["rm", "-f", tempFile]).ok = true :=
    fun f => hok f _ (by simp [configureCommands])
  have ok8 : ∀ f, (m.tool f killallXQuartz).ok = true := fun f => hok f _ (by simp [configureCommands])
  have q1 : ∀ f, m.effect f launchctlStop = f := fun f => hquiet f _ (by simp [configureCommands])
  have q6 : ∀ f, m.effect f launchctlStart = f := fun f => hquiet f _ (by simp [configureCommands])
  have q8 : ∀ f, m.effect f killallXQuartz = f := fun f => hquiet f _ (by simp [configureCommands])
  unfold ConfigureXQuartz
  simp only [hhome]
  cases hfs : m.fs (plistFile m homeDir) with
  | none =>
    have hwrite := hwrite hfs
    simp only [prepareScratch, Machine.run, Machine.cp, Machine.rewrite, Machine.rm,
      Machine.writeFile, Machine.stat, ok1, ok2, ok3, ok4, ok5, ok6, ok7, ok8, q1, q6, q8,
      hwrite, hfs, Option.isSome_none,
      Bool.not_false, Bool.not_true, if_true, Bool.false_eq_true, if_false, true_and,
      Option.getD_none]
    congr 1
    funext q
    simp only [FS.set]
    split_ifs <;> simp_all
  | some t =>
    simp only [prepareScratch, Machine.run, Machine.cp, Machine.rewrite, Machine.rm,
      Machine.writeFile, Machine.stat, ok1, ok2, ok3, ok4, ok5, ok6, ok7, ok8, q1, q6, q8,
      hfs, Option.isSome_some,
      Bool.not_false, Bool.not_true, if_true, Bool.false_eq_true, if_false, true_and,
      Option.getD_some]
    congr 1
    funext q
    simp only [FS.set]
    split_ifs <;> simp_all

/-! ## The edit as a function on the text -/

/-- C10: a text that holds `</dict>` splits at its last `</dict>`; on a text
`pre ++ "</dict>" ++ suf` whose shown closing tag is the last one, the
edit gives `pre ++ injected ++ "</dict>" ++ suf`, and applied twice it gives the text with
the injected fragment twice, which holds two keys `nolisten_tcp` more than the text; a
text without `</dict>` is left as it is, and `ConfigureXQuartz`, when its commands succeed
(and leave the files alone where the repository does not say what they do) and the
converted text has no `</dict>`, returns no error and leaves the converted text, with
nothing added, as the preference file. -/
theorem perlSubst_before_last_closeDict :
    (∀ t : Text, closeDict <:+: t → ∃ pre suf, t = pre ++ (closeDict ++ suf) ∧
      ¬ closeDict <:+: (closeDict ++ suf).tail ∧
      perlSubst t = pre ++ (injected ++ (closeDict ++ suf))) ∧
    (∀ pre suf : Text, ¬ closeDict <:+: (closeDict ++ suf).tail →
      perlSubst (pre ++ (closeDict ++ suf)) = pre ++ (injected ++ (closeDict ++ suf)) ∧
      perlSubst (perlSubst (pre ++ (closeDict ++ suf))) =
        pre ++ (injected ++ (injected ++ (closeDict ++ suf))) ∧
      (keyValues (perlSubst (perlSubst (pre ++ (closeDict ++ suf))))).length =
        (keyValues (pre ++ (closeDict ++ suf))).length + 2) ∧
    (∀ t : Text, ¬ closeDict <:+: t → perlSubst t = t) ∧
    (∀ (m : Machine) (homeDir : String), m.homeDir = some homeDir →
      (∀ f, ∀ argv ∈ configureCommands (plistFile m homeDir), (m.tool f argv).ok = true) →
      (m.fs (plistFile m homeDir) = none → m.writeOk tempFile = true) →
      (∀ f, ∀ argv ∈ configureCommands (plistFile m homeDir), m.effect f argv = f) →
      plistFile m homeDir ≠ tempFile →
      ¬ closeDict <:+: m.plutilXml ((m.fs (plistFile m homeDir)).getD plistContent.toList) →
      (ConfigureXQuartz m).err = none ∧
      (ConfigureXQuartz m).machine.fs (plistFile m homeDir) =
        some (m.plutilXml ((m.fs (plistFile m homeDir)).getD plistContent.toList))) := by
  refine ⟨?_, ?_, perlSubst_unmatched, ?_⟩
  · intro t ht
    cases h : substLast t with
    | none => exact absurd ht ((substLast_eq_none_iff t).mp h)
    | some r =>
      obtain ⟨pre, suf, h1, h2, h3⟩ := substLast_some t r h
      exact ⟨pre, suf, h1, h3, by rw [perlSubst, h, h2]; rfl⟩
  · intro pre suf hlast
    have h1 := perlSubst_of_last pre suf hlast
    have h2 : perlSubst (pre ++ (injected ++ (closeDict ++ suf))) =
        pre ++ (injected ++ (injected ++ (closeDict ++ suf))) := by
      have := perlSubst_of_last (pre ++ injected) suf hlast
      simpa [List.append_assoc] using this
    refine ⟨h1, by rw [h1, h2], ?_⟩
    rw [h1, h2]
    obtain ⟨a, b, ha, hb⟩ := keyValues_append_injected pre suf
    obtain ⟨a', b', ha', hb'⟩ := keyValues_append_injected (pre ++ injected) suf
    simp only [List.append_assoc] at ha' hb'
    have hlen := congrArg List.length ha'
    rw [hb] at hlen
    rw [hb', ha]
    simp only [List.length_append, List.length_cons] at hlen ⊢
    omega
  · intro m homeDir hhome hok hwrite hquiet hpath hno
    obtain ⟨herr, hm⟩ := ConfigureXQuartz_success m homeDir hhome hok hwrite hquiet
    refine ⟨herr, ?_⟩
    rw [hm]
    simp only [FS.set, hpath, if_false, if_true]
    rw [perlSubst_unmatched _ hno]

/-- Witness of C10: the edit on `<dict></dict>`, once and twice, and on `<dict/>`; and
`ConfigureXQuartz` on the machine whose preference file holds `<dict/>`. -/
theorem perlSubst_before_last_closeDict_witness :
    (perlSubst "<dict></dict>".toList =
        "<dict>        <key>nolisten_tcp</key>\n        <false/>\n        </dict>".toList ∧
      perlSubst (perlSubst "<dict></dict>".toList) =
        ("<dict>        <key>nolisten_tcp</key>\n        <false/>\n        " ++
          "        <key>nolisten_tcp</key>\n        <false/>\n        </dict>").toList) ∧
    perlSubst "<dict/>".toList = "<dict/>".toList ∧
    ((ConfigureXQuartz emptyDictMachine).err = none ∧
      (ConfigureXQuartz emptyDictMachine).machine.fs
          "/Users/u/Library/Preferences/org.macosforge.xquartz.X11.plist" =
        some "<plist version=\"1.0\">\n<dict/>\n</plist>\n".toList) :=
  ⟨⟨(perlSubst_before_last_closeDict.2.1 "<dict>".toList [] (by decide)).1,
    (perlSubst_before_last_closeDict.2.1 "<dict>".toList [] (by decide)).2.1⟩,
   perlSubst_before_last_closeDict.2.2.1 "<dict/>".toList (by decide),
   perlSubst_before_last_closeDict.2.2.2 emptyDictMachine "/Users/u" rfl (fun _ _ _ => rfl)
    (fun _ => rfl) (fun _ _ _ => rfl) (by decide) (by decide)⟩

/-- C8, as stated, fails: the value element the edit writes after the key is `<false/>`,
so the key of the edited minimal property list reads `false`, not `true`. -/
theorem injected_value_counterexample :
    injected = "        ".toList ++ keyTag ++ "\n        ".toList ++ falseTag ++ "\n        ".toList ∧
    keyValues (perlSubst plistContent.toList) = [some false] ∧
    firstValue (perlSubst plistContent.toList) ≠ some true := by
  decide

/-- C8, amended: the pair the edit injects sets `nolisten_tcp` to `false`: on every text
with a closing tag and without the key, the edited text holds the key exactly once, and
its value reads `false`. -/
theorem perlSubst_sets_false (t : Text) (hclose : closeDict <:+: t)
    (hnokey : hasKey t = false) :
    keyValues (perlSubst t) = [some false] ∧ hasKey (perlSubst t) = true ∧
    firstValue (perlSubst t) = some false ∧ lastValue (perlSubst t) = some false := by
  have hk : keyValues t = [] := by
    rw [hasKey_eq] at hnokey
    simpa using hnokey
  have hv : keyValues (perlSubst t) = [some false] := by
    rcases keyValues_perlSubst t with ⟨hno, -⟩ | ⟨-, a, b, hab, hnew⟩
    · exact absurd hclose hno
    · rw [hk] at hab
      obtain ⟨rfl, rfl⟩ := List.append_eq_nil.mp hab.symm
      simpa using hnew
  refine ⟨hv, ?_, ?_, ?_⟩
  · rw [hasKey_eq, hv]; rfl
  · rw [firstValue_eq, hv]; rfl
  · rw [lastValue_eq, hv]; rfl

/-- Witness of the amended C8 on the minimal property list. -/
theorem perlSubst_sets_false_witness :
    closeDict <:+: plistContent.toList ∧ hasKey plistContent.toList = false ∧
    firstValue (perlSubst plistContent.toList) = some false :=
  ⟨by decide, by decide, (perlSubst_sets_false plistContent.toList (by decide) (by decide)).2.2.1⟩

/-! ## Running the configuration on a configured file -/

theorem configured_values (t : Text) (h : configured t) :
    firstValue t = some false ∧ lastValue t = some false := by
  obtain ⟨hk, hv⟩ := h
  rw [hasKey_eq] at hk
  rw [firstValue_eq, lastValue_eq]
  cases hl : keyValues t with
  | nil => simp [hl] at hk
  | cons v vs =>
    have h1 : v = some false := hv v (by simp [hl])
    have h2 : ∀ w, (v :: vs).getLast? = some w → w = some false := by
      intro w hw
      exact hv w (by rw [hl]; exact List.mem_of_getLast?_eq_some hw)
    refine ⟨by simp [h1], ?_⟩
    cases hg : (v :: vs).getLast? with
    | none => simp at hg
    | some w => rw [h2 w hg]; rfl

theorem configured_perlSubst (t : Text) (h : configured t) : configured (perlSubst t) := by
  rcases keyValues_perlSubst t with ⟨-, hsame⟩ | ⟨-, a, b, hab, hnew⟩
  · rw [hsame]; exact h
  · obtain ⟨-, hv⟩ := h
    refine ⟨by rw [hasKey_eq, hnew]; simp, ?_⟩
    intro v hmem
    rw [hnew] at hmem
    rw [hab] at hv
    rcases List.mem_append.mp hmem with ha | hb
    · exact hv v (List.mem_append_left _ ha)
    · rcases List.mem_cons.mp hb with rfl | hb
      · rfl
      · exact hv v (List.mem_append_right _ hb)

/-- C3: on a machine whose preference file is a text `t` that is already configured,
where the conversion keeps the text, the commands of `ConfigureXQuartz` succeed and the
daemon and process commands leave the files alone, running `ConfigureXQuartz` once leaves
`perlSubst t` and running it twice leaves `perlSubst (perlSubst t)` as the preference
file, both without error, and both texts are still configured: the first and the last key
`nolisten_tcp` read `false`, as they did in `t`. -/
theorem ConfigureXQuartz_keeps_configured (m : Machine) (homeDir : String) (t : Text)
    (hhome : m.homeDir = some homeDir)
    (hok : ∀ f, ∀ argv ∈ configureCommands (plistFile m homeDir), (m.tool f argv).ok = true)
    (hquiet : ∀ f, ∀ argv ∈ configureCommands (plistFile m homeDir), m.effect f argv = f)
    (hpath : plistFile m homeDir ≠ tempFile)
    (htext : ∀ x, m.plutilXml x = x)
    (hfile : m.fs (plistFile m homeDir) = some t)
    (hconf : configured t) :
    ((ConfigureXQuartz m).err = none ∧
      (ConfigureXQuartz m).machine.fs (plistFile m homeDir) = some (perlSubst t)) ∧
    ((ConfigureXQuartz (ConfigureXQuartz m).machine).err = none ∧
      (ConfigureXQuartz (ConfigureXQuartz m).machine).machine.fs (plistFile m homeDir) =
        some (perlSubst (perlSubst t))) ∧
    (configured (perlSubst t) ∧ firstValue (perlSubst t) = firstValue t ∧
      lastValue (perlSubst t) = lastValue t) ∧
    (configured (perlSubst (perlSubst t)) ∧ firstValue (perlSubst (perlSubst t)) = firstValue t ∧
      lastValue (perlSubst (perlSubst t)) = lastValue t) ∧
    firstValue t = some false ∧ lastValue t = some false := by
  obtain ⟨herr, hm⟩ := ConfigureXQuartz_success m homeDir hhome hok
    (fun h => by rw [hfile] at h; cases h) hquiet
  have hfs1 : (ConfigureXQuartz m).machine.fs (plistFile m homeDir) = some (perlSubst t) := by
    rw [hm]
    simp only [FS.set, hpath, if_false, if_true, hfile, Option.getD_some, htext]
  have hplist : plistFile (ConfigureXQuartz m).machine homeDir = plistFile m homeDir := by
    rw [hm]; rfl
  obtain ⟨herr2, hm2⟩ := ConfigureXQuartz_success (ConfigureXQuartz m).machine homeDir
    (by rw [hm]; exact hhome) (by rw [hplist, hm]; exact hok)
    (fun h => by rw [hplist, hfs1] at h; cases h)
    (by rw [hplist, hm]; exact hquiet)
  have hfs2 : (ConfigureXQuartz (ConfigureXQuartz m).machine).machine.fs (plistFile m homeDir) =
      some (perlSubst (perlSubst t)) := by
    rw [hm2, hplist]
    simp only [FS.set, hpath, if_false, if_true, hfs1, Option.getD_some]
    rw [hm]
    simp only [htext]
  have c1 := configured_perlSubst t hconf
  have c2 := configured_perlSubst _ c1
  have v0 := configured_values t hconf
  have v1 := configured_values _ c1
  have v2 := configured_values _ c2
  exact ⟨⟨herr, hfs1⟩, ⟨herr2, hfs2⟩, ⟨c1, v1.1.trans v0.1.symm, v1.2.trans v0.2.symm⟩,
    ⟨c2, v2.1.trans v0.1.symm, v2.2.trans v0.2.symm⟩, v0⟩

/-- Witness of C3 on a machine whose preference file sets `nolisten_tcp` to `false`:
after the second run the preference file holds the key three times, and the first key
still reads `false`. -/
theorem ConfigureXQuartz_keeps_configured_witness :
    (ConfigureXQuartz (ConfigureXQuartz configuredMachine).machine).err = none ∧
    (ConfigureXQuartz (ConfigureXQuartz configuredMachine).machine).machine.fs
        "/Users/u/Library/Preferences/org.macosforge.xquartz.X11.plist" =
      some (perlSubst (perlSubst
        "<plist version=\"1.0\">\n<dict>\n\t<key>nolisten_tcp</key>\n\t<false/>\n</dict>\n</plist>\n".toList)) ∧
    firstValue (perlSubst (perlSubst
        "<plist version=\"1.0\">\n<dict>\n\t<key>nolisten_tcp</key>\n\t<false/>\n</dict>\n</plist>\n".toList)) =
      some false ∧
    keyValues (perlSubst (perlSubst
        "<plist version=\"1.0\">\n<dict>\n\t<key>nolisten_tcp</key>\n\t<false/>\n</dict>\n</plist>\n".toList)) =
      [some false, some false, some false] :=
  have h := ConfigureXQuartz_keeps_configured configuredMachine "/Users/u"
    "<plist version=\"1.0\">\n<dict>\n\t<key>nolisten_tcp</key>\n\t<false/>\n</dict>\n</plist>\n".toList
    rfl (fun _ _ _ => rfl) (fun _ _ _ => rfl) (by decide) (fun _ => rfl) rfl
    ⟨by decide, by decide⟩
  ⟨h.2.1.1, h.2.1.2, h.2.2.2.1.2.1.trans h.2.2.2.2.1, by decide⟩

/-! ## From no preference file to a configured one -/

/-- C6 fails on `freshMachine`: the probe reports installed but unconfigured; every step
of `ConfigureXQuartz` succeeds and it returns no error; but the converted scratch file has
no `</dict>`, the edit adds nothing, the preference file written holds no key
`nolisten_tcp`, and the probe of the resulting machine still asks for configuration. -/
theorem ConfigureXQuartz_fresh_file_without_key :
    (checkXQuartz freshMachine).1.Message = "XQuartz is installed but needs configuration" ∧
    (ConfigureXQuartz freshMachine).err = none ∧
    ((ConfigureXQuartz freshMachine).trace.map Step.ok).all id = true ∧
    (ConfigureXQuartz freshMachine).machine.fs
        "/Users/u/Library/Preferences/org.macosforge.xquartz.X11.plist" = some emptyDictXml ∧
    hasKey emptyDictXml = false ∧
    (checkXQuartz (ConfigureXQuartz freshMachine).machine).1.Message =
      "XQuartz is installed but needs configuration" := by
  decide

/-- When the conversion keeps the text of the minimal property list, the run on the same
machine does what C6 describes: the preference file written is the minimal property list
with the injected text in front of `</dict>`, and the next probe reports configured. -/
theorem ConfigureXQuartz_fresh_file_text_kept :
    (checkXQuartz freshTextMachine).1.Message = "XQuartz is installed but needs configuration" ∧
    (ConfigureXQuartz freshTextMachine).err = none ∧
    (ConfigureXQuartz freshTextMachine).machine.fs
        "/Users/u/Library/Preferences/org.macosforge.xquartz.X11.plist" =
      some ("<?xml version=\"1.0\" encoding=\"UTF-8\"?>\n<!DOCTYPE plist PUBLIC \"-//Apple//DTD PLIST 1.0//EN\" \"http://www.apple.com/DTDs/PropertyList-1.0.dtd\">\n<plist version=\"1.0\">\n<dict>\n".toList
        ++ injected ++ "</dict>\n</plist>".toList) ∧
    (checkXQuartz (ConfigureXQuartz freshTextMachine).machine).1.Message =
      "XQuartz is installed and configured" := by
  decide

/-! ## A run in which the edit fails -/

/-- Witness of C9 on a machine where the edit fails: the error is returned after four
steps, and the daemon is not restarted, the scratch file is not deleted and XQuartz is not
terminated. -/
theorem ConfigureXQuartz_early_exit_witness :
    (ConfigureXQuartz brokenPerlMachine).err =
      some (.wrap "failed to modify plist" (.exec perlInject)) ∧
    (ConfigureXQuartz brokenPerlMachine).trace.map Step.action =
      (configureSteps brokenPerlMachine "/Users/u").take 4 ∧
    ∀ s ∈ (ConfigureXQuartz brokenPerlMachine).trace,
      s.action ≠ .exec launchctlStart ∧ s.action ≠ .exec ["rm", "-f", tempFile] ∧
        s.action ≠ .exec killallXQuartz :=
  ⟨by decide, by decide,
   (ConfigureXQuartz_early_exit brokenPerlMachine).2.2.2.1 (by decide)⟩

end Sasm
